import Mathlib

/-!
Verification of the TESS photometry MPI scheduler.

A shallow embedding of `mpi_scheduler.py` (master and worker loops) and of
the queue-construction tail of `photometry/todolist.py` (`make_todo`),
together with theorems about the scheduling protocol.

Modelling conventions:
* Python dictionaries with string keys become association lists
  (`Dict := List (String × Value)`); `dict.copy`, `del d[k]`, `d.update`
  and truthiness are modelled by the corresponding list operations.
* The MPI message tags come from `enum.IntEnum('tags', ('READY', 'DONE',
  'EXIT', 'START'))`, i.e. the integers 1, 2, 3, 4; an arbitrary `Nat`
  models a possibly-unknown tag.
* The injected task-execution function (`tessphot`) is a parameter
  `exec_fn : Dict → ExecResult` that either returns a photometry object or
  raises.  Wall-clock readings (`timeit.default_timer`) are a parameter
  `timer : Nat → Int`, consumed one reading per call.
* Exceptions are modelled explicitly: a loop-body step either continues,
  breaks, or raises with a message; the worker's `try/except/finally` and
  the master's fatal `raise` are modelled in the loop functions.
-/

namespace TessScheduler

/-- Message tag `READY` (value 1 of `enum.IntEnum('tags', ...)`). -/
def tagREADY : Nat := 1

/-- Message tag `DONE` (value 2). -/
def tagDONE : Nat := 2

/-- Message tag `EXIT` (value 3). -/
def tagEXIT : Nat := 3

/-- Message tag `START` (value 4). -/
def tagSTART : Nat := 4

/-- Modelled from the spec: the outcome-code taxonomy of §4.4 (`OK`,
`WARNING`, `ERROR`, `FATAL`).  The `STATUS` enum itself lives in the
`photometry` package, outside the scheduling sources. -/
inductive STATUS where
  | OK
  | WARNING
  | ERROR
  | FATAL
  deriving DecidableEq, Repr

/-- Values stored in task/result dictionaries. -/
inductive Value where
  | int (n : Int)
  | str (s : String)
  | status (s : STATUS)
  deriving DecidableEq, Repr

/-- A Python dictionary with string keys, as an association list in
insertion order. -/
abbrev Dict := List (String × Value)

/-- `d[k]` lookup: first binding of the key, if any. -/
def Dict.find (d : Dict) (k : String) : Option Value :=
  (List.find? (fun kv => kv.1 = k) d).map (fun kv => kv.2)

/-- `del d[k]`: remove the binding of `k` (keys are unique in a Python
dict, so removing every binding of `k` is the same operation). -/
def Dict.del (d : Dict) (k : String) : Dict :=
  List.filter (fun kv => ¬ kv.1 = k) d

/-- `d[k] = v`: replace the binding in place if the key exists, else
append the new binding at the end (Python insertion order). -/
def Dict.set : Dict → String → Value → Dict
  | [], k, v => [(k, v)]
  | kv :: rest, k, v =>
    if kv.1 = k then (k, v) :: rest else kv :: Dict.set rest k v

/-- `d.update(u)`: set every binding of `u` in order. -/
def Dict.update (d : Dict) (u : List (String × Value)) : Dict :=
  List.foldl (fun acc kv => Dict.set acc kv.1 kv.2) d u

/-- The object returned by a successful `tessphot` call: the worker reads
its `.status` and `._details` attributes. -/
structure Pho where
  status : STATUS
  details : Value
  deriving DecidableEq, Repr

/-- Outcome of calling the injected execution function: it either returns
a photometry object or raises an exception. -/
inductive ExecResult where
  | ok (pho : Pho)
  | raised (msg : String)
  deriving DecidableEq, Repr

/-- A message as received by a worker from the master: a tag and an
optional dictionary payload (`START` carries a task, `EXIT` carries
`None`). -/
structure WMsgIn where
  tag : Nat
  data : Option Dict
  deriving DecidableEq, Repr

/-- A message sent by a worker to the master. -/
structure WMsgOut where
  tag : Nat
  data : Option Dict
  deriving DecidableEq, Repr

/-- The `READY` signal the worker sends before each receive
(`comm.send(None, dest=0, tag=tags.READY)`). -/
def readyMsg : WMsgOut := ⟨tagREADY, Option.none⟩

/-- The final `EXIT` acknowledgement sent in the worker's `finally`
block (`comm.send(None, dest=0, tag=tags.EXIT)`). -/
def exitAckMsg : WMsgOut := ⟨tagEXIT, Option.none⟩

/-- Worker-local mutable state: the binding environment of the name `pho`
(`Option Pho`, `none` when the name is unbound), the task counter `k`,
and how many `default_timer` readings have been consumed. -/
structure WState where
  phoEnv : Option Pho
  k : Nat
  nTimer : Nat
  deriving DecidableEq, Repr

/-- Worker state at loop entry: `k = 0` and the name `pho` unbound. -/
def initWState : WState := ⟨Option.none, 0, 0⟩

/-- Outcome of one execution of the worker loop body after the receive:
continue the loop (with messages sent), break out (tag `EXIT`), or an
exception escaping the loop body. -/
inductive WStep where
  | cont (st : WState) (out : List WMsgOut)
  | brk
  | exn (msg : String)
  deriving DecidableEq, Repr

/-- The worker loop body after `task = comm.recv(...)`, from
`mpi_scheduler.py` lines 119-153.  On `START`: `result = task.copy()`,
`del task['priority']`, call `tessphot` inside `try/except` (the except
clause only logs), read a second timer, then build the result message
from `pho.status` and `pho._details` — a `NameError` when `pho` is
unbound — send it with tag `DONE`, `del pho, task, result`, `k += 1`.
On `EXIT`: break.  Any other tag: raise naming the tag. -/
def workerHandle (exec_fn : Dict → ExecResult) (timer : Nat → Int)
    (st : WState) (m : WMsgIn) : WStep :=
  if m.tag = tagSTART then
    match m.data with
    | Option.none => .exn "AttributeError: 'NoneType' object has no attribute 'copy'"
    | Option.some task =>
      -- result = task.copy()  (before `del task['priority']`)
      let result := task
      match Dict.find task "priority" with
      | Option.none => .exn "KeyError: 'priority'"
      | Option.some _ =>
        let task2 := Dict.del task "priority"
        let t1 := timer st.nTimer
        -- try: pho = tessphot(..., **task)  except: logger.exception(...)
        let phoEnv2 := match exec_fn task2 with
          | .ok pho => Option.some pho
          | .raised _ => st.phoEnv
        let t2 := timer (st.nTimer + 1)
        -- result.update({'status': pho.status, 'time': t2-t1, 'details': pho._details})
        match phoEnv2 with
        | Option.none => .exn "NameError: name 'pho' is not defined"
        | Option.some pho =>
          let result2 := Dict.update result
            [("status", Value.status pho.status),
             ("time", Value.int (t2 - t1)),
             ("details", pho.details)]
          -- comm.send(result, dest=0, tag=tags.DONE); del pho, task, result; k += 1
          .cont ⟨Option.none, st.k + 1, st.nTimer + 2⟩ [⟨tagDONE, Option.some result2⟩]
  else if m.tag = tagEXIT then
    .brk
  else
    .exn ("Worker recieved an unknown tag: '" ++ toString m.tag ++ "'")

/-- How the worker's `while True` loop ended: `break` on `EXIT`, an
exception escaping the loop body, or blocked in `comm.recv` waiting for
a message that never arrives. -/
inductive LoopEnd where
  | broke
  | failed (msg : String)
  | blocked
  deriving DecidableEq, Repr

/-- The worker's `while True` loop over a stream of incoming messages:
each iteration sends `READY`, then receives one message and runs the
loop body. -/
def workerLoopAux (exec_fn : Dict → ExecResult) (timer : Nat → Int) :
    WState → List WMsgIn → List WMsgOut × LoopEnd
  | _, [] => ([readyMsg], .blocked)
  | st, m :: rest =>
    match workerHandle exec_fn timer st m with
    | .cont st2 out =>
      match workerLoopAux exec_fn timer st2 rest with
      | (out2, e) => (readyMsg :: (out ++ out2), e)
    | .brk => ([readyMsg], .broke)
    | .exn msg => ([readyMsg], .failed msg)

/-- How a whole worker run ended: normal termination, termination after
a failure caught by the outer `except` (logged), or blocked in a
receive. -/
inductive WorkerEnd where
  | normal
  | failed (msg : String)
  | blocked
  deriving DecidableEq, Repr

/-- A full worker run (`mpi_scheduler.py` lines 110-159): the loop under
`try`, the outer `except` that logs any escaped exception, and the
`finally` block that sends the final `EXIT` acknowledgement. -/
def workerRun (exec_fn : Dict → ExecResult) (timer : Nat → Int)
    (msgs : List WMsgIn) : List WMsgOut × WorkerEnd :=
  match workerLoopAux exec_fn timer initWState msgs with
  | (out, .broke) => (out ++ [exitAckMsg], .normal)
  | (out, .failed msg) => (out ++ [exitAckMsg], .failed msg)
  | (out, .blocked) => (out, .blocked)

/-- A message as received by the master: source rank, tag, and the
payload (`None` for `READY`/`EXIT`, a result dictionary for `DONE`). -/
structure MMsgIn where
  source : Nat
  tag : Nat
  data : Option Dict
  deriving DecidableEq, Repr

/-- A message sent by the master: destination rank, tag, payload. -/
structure MMsgOut where
  dest : Nat
  tag : Nat
  data : Option Dict
  deriving DecidableEq, Repr

/-- Master-side state: the `closed_workers` counter, how many
`tm.get_task()` calls have been made (indexing the oracle stream), the
priorities passed to `tm.start_task` and the payloads passed to
`tm.save_result`, in call order. -/
structure MState where
  closedWorkers : Nat
  gtIdx : Nat
  started : List Value
  saved : List (Option Dict)
  deriving DecidableEq, Repr

/-- Master state at loop entry: `closed_workers = 0`, no task-manager
calls made yet. -/
def initMState : MState := ⟨0, 0, [], []⟩

/-- Python truthiness of `tm.get_task()`'s value as used in `if task:`:
`None` and the empty dictionary are falsy, a non-empty dictionary is
truthy. -/
def pyTruthy : Option Dict → Bool
  | Option.none => false
  | Option.some d => ¬ d.isEmpty

/-- One iteration of the master loop after `comm.recv`
(`mpi_scheduler.py` lines 68-93), with `tm.get_task()` modelled as an
oracle stream `get_task : Nat → Option Dict` read at the call counter.
On `READY`: `task = tm.get_task()`; `if task:` (Python truthiness) then
`tm.start_task(task['priority'])` and send the task back with `START`,
else send `None` with `EXIT`.  On `DONE`: `tm.save_result(data)`.  On
`EXIT`: `closed_workers += 1`.  Any other tag: raise naming the tag. -/
def masterStep (get_task : Nat → Option Dict) (st : MState) (m : MMsgIn) :
    Except String (MState × List MMsgOut) :=
  if m.tag = tagREADY then
    let task := get_task st.gtIdx
    let st1 : MState := ⟨st.closedWorkers, st.gtIdx + 1, st.started, st.saved⟩
    match task with
    | Option.some d =>
      if d.isEmpty then
        -- `if task:` is false for an empty dict
        .ok (st1, [⟨m.source, tagEXIT, Option.none⟩])
      else
        match Dict.find d "priority" with
        | Option.none => .error "KeyError: 'priority'"
        | Option.some p =>
          .ok (⟨st1.closedWorkers, st1.gtIdx, st1.started ++ [p], st1.saved⟩,
               [⟨m.source, tagSTART, Option.some d⟩])
    | Option.none =>
      .ok (st1, [⟨m.source, tagEXIT, Option.none⟩])
  else if m.tag = tagDONE then
    .ok (⟨st.closedWorkers, st.gtIdx, st.started, st.saved ++ [m.data]⟩, [])
  else if m.tag = tagEXIT then
    .ok (⟨st.closedWorkers + 1, st.gtIdx, st.started, st.saved⟩, [])
  else
    .error ("Master recieved an unknown tag: '" ++ toString m.tag ++ "'")

/-- How the master's `while closed_workers < num_workers` loop ended:
drained (guard became false), blocked in `comm.recv`, or crashed on an
uncaught exception. -/
inductive MasterEnd where
  | drained
  | blocked
  | crashed (msg : String)
  deriving DecidableEq, Repr

/-- The master loop (`mpi_scheduler.py` lines 62-93) over a stream of
incoming messages: while `closed_workers < num_workers`, receive one
message and handle it.  Returns the sent messages, the final state and
how the loop ended. -/
def masterLoop (get_task : Nat → Option Dict) (numWorkers : Nat) :
    MState → List MMsgIn → List MMsgOut × MState × MasterEnd
  | st, [] =>
    if st.closedWorkers < numWorkers then ([], st, .blocked)
    else ([], st, .drained)
  | st, m :: rest =>
    if st.closedWorkers < numWorkers then
      match masterStep get_task st m with
      | .error e => ([], st, .crashed e)
      | .ok (st2, out) =>
        match masterLoop get_task numWorkers st2 rest with
        | (out2, stf, e) => (out ++ out2, stf, e)
    else ([], st, .drained)

/-- A full master run: `num_workers = size - 1` workers
(`mpi_scheduler.py` line 59), starting from the initial state. -/
def masterRun (get_task : Nat → Option Dict) (size : Nat)
    (msgs : List MMsgIn) : List MMsgOut × MState × MasterEnd :=
  masterLoop get_task (size - 1) initMState msgs

/-- An `tm.get_task()` oracle for a store with zero pending tasks: every
call returns `None`. -/
def getTaskEmpty : Nat → Option Dict := fun _ => Option.none

/-- A concrete task dictionary with priority 1, as dispatched by the
master. -/
def taskP1 : Dict := [("priority", Value.int 1), ("starid", Value.int 42)]

/-- A concrete execution function that raises on every call. -/
def execAlwaysRaises : Dict → ExecResult := fun _ => .raised "boom"

/-- A concrete execution function that succeeds on every call with a
nominal status. -/
def execReturnsOK : Dict → ExecResult := fun _ => .ok ⟨STATUS.OK, Value.int 0⟩

/-- A concrete timer stream. -/
def timerZero : Nat → Int := fun _ => 0

/-- The `DONE` payload the worker produces for `taskP1` under
`execReturnsOK` and `timerZero`: the full task copy — `priority`
included — updated with `status`, `time` and `details`. -/
def doneResultP1 : Dict :=
  [("priority", Value.int 1), ("starid", Value.int 42),
   ("status", Value.status STATUS.OK), ("time", Value.int 0),
   ("details", Value.int 0)]

end TessScheduler

namespace TodoList

/-- A row of the final catalog table in `make_todo`, just before
`cat.sort('tmag')` (`photometry/todolist.py` line 406).  The `tmag`
sort key is modelled as an integer-valued magnitude. -/
structure CatRow where
  starid : Int
  sector : Int
  camera : Int
  ccd : Int
  datasource : String
  tmag : Int
  cbv_area : Int
  deriving DecidableEq, Repr

/-- A row of the `todolist` table inserted by `make_todo`
(`photometry/todolist.py` lines 426-441). -/
structure TodoRow where
  priority : Nat
  starid : Int
  sector : Int
  camera : Int
  ccd : Int
  datasource : String
  tmag : Int
  cbv_area : Int
  method : Option String
  deriving DecidableEq, Repr

/-- `cat.sort('tmag')`: sort the catalog by the `tmag` column. -/
def sortByTmag (cat : List CatRow) : List CatRow :=
  List.mergeSort cat (fun a b => decide (a.tmag ≤ b.tmag))

/-- The insertion loop of `make_todo` (`photometry/todolist.py` lines
405-441): sort the final catalog by `tmag`, then insert each row with
`priority = pri + 1` where `pri` enumerates from 0, looking up an
optional per-target method. -/
def makeTodoRows (methods : Int → Int → String → Option String)
    (cat : List CatRow) : List TodoRow :=
  List.map
    (fun pr =>
      ⟨pr.1 + 1, pr.2.starid, pr.2.sector, pr.2.camera, pr.2.ccd,
       pr.2.datasource, pr.2.tmag, pr.2.cbv_area,
       methods pr.2.starid pr.2.sector pr.2.datasource⟩)
    (List.enum (sortByTmag cat))

/-- An SQL index created on the `todolist` table. -/
structure IndexDef where
  name : String
  unique : Bool
  columns : List String
  deriving DecidableEq, Repr

/-- The indexes `make_todo` creates on the `todolist` table
(`photometry/todolist.py` lines 444-447). -/
def todolistIndexes : List IndexDef :=
  [⟨"priority_idx", true, ["priority"]⟩,
   ⟨"starid_datasource_idx", false, ["starid", "datasource"]⟩,
   ⟨"status_idx", false, ["status"]⟩,
   ⟨"starid_idx", false, ["starid"]⟩]

end TodoList

namespace TessScheduler

/-! ## Helper lemmas about dictionaries -/

theorem Dict.find_nil (k : String) : Dict.find [] k = Option.none := rfl

/-- Setting a different key does not change a lookup. -/
theorem Dict.find_set_ne (d : Dict) (k' k : String) (v : Value) (h : ¬ k' = k) :
    Dict.find (Dict.set d k' v) k = Dict.find d k := by
  induction d with
  | nil => simp [Dict.set, Dict.find, List.find?, h]
  | cons kv rest ih =>
    by_cases hk : kv.1 = k'
    · simp [Dict.set, hk, Dict.find, List.find?, h]
    · simp only [Dict.set, hk, if_neg hk]
      by_cases hk2 : kv.1 = k
      · simp [Dict.find, List.find?, hk2]
      · simpa [Dict.find, List.find?, hk2] using ih

/-- Updating with keys all different from `k` does not change the lookup
of `k`. -/
theorem Dict.find_update_of_not_mem (d : Dict) (u : List (String × Value))
    (k : String) (h : ∀ kv ∈ u, ¬ kv.1 = k) :
    Dict.find (Dict.update d u) k = Dict.find d k := by
  induction u generalizing d with
  | nil => rfl
  | cons kv rest ih =>
    show Dict.find (Dict.update (Dict.set d kv.1 kv.2) rest) k = _
    rw [ih (Dict.set d kv.1 kv.2) (fun x hx => h x (List.mem_cons_of_mem kv hx))]
    exact Dict.find_set_ne d kv.1 k kv.2 (h kv (List.mem_cons_self kv rest))

/-- A dictionary with a successful lookup is not empty. -/
theorem Dict.ne_nil_of_find_some {d : Dict} {k : String} {v : Value}
    (h : Dict.find d k = Option.some v) : d.isEmpty = false := by
  cases d with
  | nil => simp [Dict.find, List.find?] at h
  | cons kv rest => rfl

/-! ## Helper lemmas about the worker loop -/

/-- Shape of a continuing worker step: the name `pho` is deleted again,
`k` is incremented, two timer readings were consumed, and exactly one
`DONE` message was sent. -/
theorem workerHandle_cont_shape {exec_fn : Dict → ExecResult}
    {timer : Nat → Int} {st : WState} {m : WMsgIn} {st2 : WState}
    {out : List WMsgOut}
    (h : workerHandle exec_fn timer st m = .cont st2 out) :
    st2.phoEnv = Option.none ∧ st2.k = st.k + 1 ∧ st2.nTimer = st.nTimer + 2 ∧
    ∃ r, out = [⟨tagDONE, Option.some r⟩] := by
  by_cases ht : m.tag = tagSTART
  · cases hd : m.data with
    | none => simp [workerHandle, ht, hd] at h
    | some task =>
      cases hf : Dict.find task "priority" with
      | none => simp [workerHandle, ht, hd, hf] at h
      | some p =>
        cases he : exec_fn (Dict.del task "priority") with
        | ok pho =>
          simp only [workerHandle, ht, if_pos rfl, hd, hf, he] at h
          obtain ⟨h1, h2⟩ := WStep.cont.inj h
          subst h1; subst h2
          exact ⟨rfl, rfl, rfl, _, rfl⟩
        | raised msg =>
          cases hp : st.phoEnv with
          | none => simp [workerHandle, ht, hd, hf, he, hp] at h
          | some pho =>
            simp only [workerHandle, ht, if_pos rfl, hd, hf, he, hp] at h
            obtain ⟨h1, h2⟩ := WStep.cont.inj h
            subst h1; subst h2
            exact ⟨rfl, rfl, rfl, _, rfl⟩
  · by_cases ht2 : m.tag = tagEXIT
    · simp [workerHandle, ht, ht2, tagEXIT, tagSTART] at h
    · simp [workerHandle, ht, ht2] at h

/-- When the execution function raises and `pho` is unbound, the worker
loop body raises `NameError` at result construction. -/
theorem workerHandle_raised_nameError (exec_fn : Dict → ExecResult)
    (timer : Nat → Int) (st : WState) (task : Dict) (p : Value) (e : String)
    (hpho : st.phoEnv = Option.none)
    (hfind : Dict.find task "priority" = Option.some p)
    (hraise : exec_fn (Dict.del task "priority") = .raised e) :
    workerHandle exec_fn timer st ⟨tagSTART, Option.some task⟩ =
      .exn "NameError: name 'pho' is not defined" := by
  simp [workerHandle, hfind, hraise, hpho]

/-- The loop proper never sends an `EXIT`-tagged message: only `READY`
and `DONE`. -/
theorem workerLoopAux_no_exit (exec_fn : Dict → ExecResult)
    (timer : Nat → Int) (msgs : List WMsgIn) (st : WState) :
    ∀ o ∈ (workerLoopAux exec_fn timer st msgs).1, ¬ o.tag = tagEXIT := by
  induction msgs generalizing st with
  | nil =>
    intro o ho
    simp only [workerLoopAux, List.mem_singleton] at ho
    subst ho
    decide
  | cons m rest ih =>
    intro o ho
    cases hh : workerHandle exec_fn timer st m with
    | cont st2 out =>
      obtain ⟨-, -, -, r, hr⟩ := workerHandle_cont_shape hh
      subst hr
      cases hx : workerLoopAux exec_fn timer st2 rest with
      | mk out2 e =>
        simp only [workerLoopAux, hh, hx, List.cons_append, List.nil_append,
          List.mem_cons] at ho
        rcases ho with ho | ho | ho
        · subst ho; decide
        · subst ho; simp [tagDONE, tagEXIT]
        · exact ih st2 o (by rw [hx]; exact ho)
    | brk =>
      simp only [workerLoopAux, hh, List.mem_singleton] at ho
      subst ho; decide
    | exn msg =>
      simp only [workerLoopAux, hh, List.mem_singleton] at ho
      subst ho; decide

/-! ## Helper lemmas about the master loop -/

/-- `READY` when `get_task` returns a task carrying a priority:
`start_task` is called with that priority and `START` carries the task
back to the source. -/
theorem masterStep_ready_some (get_task : Nat → Option Dict) (st : MState)
    (m : MMsgIn) (d : Dict) (p : Value) (ht : m.tag = tagREADY)
    (hgt : get_task st.gtIdx = Option.some d)
    (hfind : Dict.find d "priority" = Option.some p) :
    masterStep get_task st m =
      .ok (⟨st.closedWorkers, st.gtIdx + 1, st.started ++ [p], st.saved⟩,
           [⟨m.source, tagSTART, Option.some d⟩]) := by
  simp [masterStep, ht, hgt, hfind, Dict.ne_nil_of_find_some hfind]

/-- `READY` when `get_task` returns `None`: `EXIT` is sent back. -/
theorem masterStep_ready_none (get_task : Nat → Option Dict) (st : MState)
    (m : MMsgIn) (ht : m.tag = tagREADY)
    (hgt : get_task st.gtIdx = Option.none) :
    masterStep get_task st m =
      .ok (⟨st.closedWorkers, st.gtIdx + 1, st.started, st.saved⟩,
           [⟨m.source, tagEXIT, Option.none⟩]) := by
  simp [masterStep, ht, hgt]

/-- `READY` when `get_task` returns an empty dictionary: falsy under
`if task:`, so `EXIT` is sent back. -/
theorem masterStep_ready_emptyDict (get_task : Nat → Option Dict)
    (st : MState) (m : MMsgIn) (ht : m.tag = tagREADY)
    (hgt : get_task st.gtIdx = Option.some []) :
    masterStep get_task st m =
      .ok (⟨st.closedWorkers, st.gtIdx + 1, st.started, st.saved⟩,
           [⟨m.source, tagEXIT, Option.none⟩]) := by
  simp [masterStep, ht, hgt]

/-- `DONE`: the payload is handed to `save_result` and nothing is sent. -/
theorem masterStep_done (get_task : Nat → Option Dict) (st : MState)
    (m : MMsgIn) (ht : m.tag = tagDONE) :
    masterStep get_task st m =
      .ok (⟨st.closedWorkers, st.gtIdx, st.started, st.saved ++ [m.data]⟩, []) := by
  simp [masterStep, ht, tagDONE, tagREADY]

/-- `EXIT`: the closed-worker counter is incremented and nothing is
sent. -/
theorem masterStep_exitTag (get_task : Nat → Option Dict) (st : MState)
    (m : MMsgIn) (ht : m.tag = tagEXIT) :
    masterStep get_task st m =
      .ok (⟨st.closedWorkers + 1, st.gtIdx, st.started, st.saved⟩, []) := by
  simp [masterStep, ht, tagEXIT, tagREADY, tagDONE]

/-- Any tag the master does not handle raises an exception naming the
tag. -/
theorem masterStep_unknown (get_task : Nat → Option Dict) (st : MState)
    (m : MMsgIn) (h1 : ¬ m.tag = tagREADY) (h2 : ¬ m.tag = tagDONE)
    (h3 : ¬ m.tag = tagEXIT) :
    masterStep get_task st m =
      .error ("Master recieved an unknown tag: '" ++ toString m.tag ++ "'") := by
  simp [masterStep, h1, h2, h3]

/-- A successful master step changes the closed-worker count by zero or
one. -/
theorem masterStep_ok_closed {get_task : Nat → Option Dict} {st st2 : MState}
    {m : MMsgIn} {out : List MMsgOut}
    (h : masterStep get_task st m = .ok (st2, out)) :
    st2.closedWorkers = st.closedWorkers ∨
    st2.closedWorkers = st.closedWorkers + 1 := by
  by_cases h1 : m.tag = tagREADY
  · cases hgt : get_task st.gtIdx with
    | none =>
      rw [masterStep_ready_none get_task st m h1 hgt] at h
      obtain ⟨h2, -⟩ := Prod.mk.inj (Except.ok.inj h)
      subst h2; exact Or.inl rfl
    | some d =>
      by_cases hde : d.isEmpty
      · simp only [masterStep, h1, if_pos rfl, hgt, hde, if_true] at h
        obtain ⟨h2, -⟩ := Prod.mk.inj (Except.ok.inj h)
        subst h2; exact Or.inl rfl
      · cases hf : Dict.find d "priority" with
        | none => simp [masterStep, h1, hgt, hde, hf] at h
        | some p =>
          rw [masterStep_ready_some get_task st m d p h1 hgt hf] at h
          obtain ⟨h2, -⟩ := Prod.mk.inj (Except.ok.inj h)
          subst h2; exact Or.inl rfl
  · by_cases h2 : m.tag = tagDONE
    · rw [masterStep_done get_task st m h2] at h
      obtain ⟨h3, -⟩ := Prod.mk.inj (Except.ok.inj h)
      subst h3; exact Or.inl rfl
    · by_cases h3 : m.tag = tagEXIT
      · rw [masterStep_exitTag get_task st m h3] at h
        obtain ⟨h4, -⟩ := Prod.mk.inj (Except.ok.inj h)
        subst h4; exact Or.inr rfl
      · rw [masterStep_unknown get_task st m h1 h2 h3] at h
        exact absurd h (by simp)

/-- When the loop guard fails the master loop stops at once. -/
theorem masterLoop_drained_of_guard (get_task : Nat → Option Dict)
    (n : Nat) (st : MState) (msgs : List MMsgIn)
    (h : ¬ st.closedWorkers < n) :
    masterLoop get_task n st msgs = ([], st, .drained) := by
  cases msgs with
  | nil => simp [masterLoop, h]
  | cons m rest => simp [masterLoop, h]

/-- If the master loop drains, the closed-worker count has reached
exactly the worker count. -/
theorem masterLoop_drained_closed (get_task : Nat → Option Dict) (n : Nat) :
    ∀ (msgs : List MMsgIn) (st : MState) (outs : List MMsgOut) (stf : MState),
      st.closedWorkers ≤ n →
      masterLoop get_task n st msgs = (outs, stf, .drained) →
      stf.closedWorkers = n := by
  intro msgs
  induction msgs with
  | nil =>
    intro st outs stf hle h
    simp only [masterLoop] at h
    split at h
    · simp at h
    next hge =>
      simp only [Prod.mk.injEq] at h
      obtain ⟨-, h2, -⟩ := h
      subst h2
      omega
  | cons m rest ih =>
    intro st outs stf hle h
    simp only [masterLoop] at h
    split at h
    next hlt =>
      cases hs : masterStep get_task st m with
      | error e => simp only [hs] at h; simp at h
      | ok pr =>
        cases pr with
        | mk st2 out =>
          cases hx : masterLoop get_task n st2 rest with
          | mk out2 pr2 =>
            cases pr2 with
            | mk stf2 e =>
              simp only [hs, hx] at h
              simp only [Prod.mk.injEq] at h
              obtain ⟨-, h2, h3⟩ := h
              subst h3
              subst h2
              have hle2 : st2.closedWorkers ≤ n := by
                rcases masterStep_ok_closed hs with hc | hc <;> omega
              exact ih st2 out2 stf2 hle2 hx
    next hge =>
      simp only [Prod.mk.injEq] at h
      obtain ⟨-, h2, -⟩ := h
      subst h2
      omega

/-- With an empty store every sent message is `EXIT`-tagged. -/
theorem masterStep_empty_out {st st2 : MState} {m : MMsgIn}
    {out : List MMsgOut}
    (h : masterStep getTaskEmpty st m = .ok (st2, out)) :
    ∀ o ∈ out, o.tag = tagEXIT := by
  by_cases h1 : m.tag = tagREADY
  · rw [masterStep_ready_none getTaskEmpty st m h1 rfl] at h
    obtain ⟨-, h2⟩ := Prod.mk.inj (Except.ok.inj h)
    subst h2
    intro o ho
    simp only [List.mem_singleton] at ho
    subst ho; rfl
  · by_cases h2 : m.tag = tagDONE
    · rw [masterStep_done getTaskEmpty st m h2] at h
      obtain ⟨-, h3⟩ := Prod.mk.inj (Except.ok.inj h)
      subst h3
      intro o ho; exact absurd ho (List.not_mem_nil o)
    · by_cases h3 : m.tag = tagEXIT
      · rw [masterStep_exitTag getTaskEmpty st m h3] at h
        obtain ⟨-, h4⟩ := Prod.mk.inj (Except.ok.inj h)
        subst h4
        intro o ho; exact absurd ho (List.not_mem_nil o)
      · rw [masterStep_unknown getTaskEmpty st m h1 h2 h3] at h
        exact absurd h (by simp)

/-- With an empty store the master loop never sends `START`. -/
theorem masterLoop_no_start_empty (n : Nat) :
    ∀ (msgs : List MMsgIn) (st : MState),
      ∀ o ∈ (masterLoop getTaskEmpty n st msgs).1, ¬ o.tag = tagSTART := by
  intro msgs
  induction msgs with
  | nil =>
    intro st o ho
    simp only [masterLoop] at ho
    split at ho <;> simp at ho
  | cons m rest ih =>
    intro st o ho
    simp only [masterLoop] at ho
    split at ho
    · cases hs : masterStep getTaskEmpty st m with
      | error e => simp only [hs] at ho; simp at ho
      | ok pr =>
        cases pr with
        | mk st2 out =>
          cases hx : masterLoop getTaskEmpty n st2 rest with
          | mk out2 pr2 =>
            simp only [hs, hx, List.mem_append] at ho
            rcases ho with ho | ho
            · rw [masterStep_empty_out hs o ho]
              decide
            · exact ih st2 o (by rw [hx]; exact ho)
    · simp at ho

/-- With an empty store, a trace of known-tag messages carrying enough
`EXIT`s drains the master loop. -/
theorem masterLoop_drains_empty (n : Nat) :
    ∀ (msgs : List MMsgIn) (st : MState),
      (∀ m ∈ msgs, m.tag = tagREADY ∨ m.tag = tagDONE ∨ m.tag = tagEXIT) →
      n ≤ st.closedWorkers +
        List.countP (fun m => decide (m.tag = tagEXIT)) msgs →
      (masterLoop getTaskEmpty n st msgs).2.2 = .drained := by
  intro msgs
  induction msgs with
  | nil =>
    intro st _ hn
    simp only [List.countP_nil, Nat.add_zero] at hn
    simp only [masterLoop]
    split
    next hlt => omega
    next => rfl
  | cons m rest ih =>
    intro st htags hn
    have htags2 : ∀ x ∈ rest, x.tag = tagREADY ∨ x.tag = tagDONE ∨ x.tag = tagEXIT :=
      fun x hx2 => htags x (List.mem_cons_of_mem m hx2)
    simp only [masterLoop]
    split
    next hlt =>
      rcases htags m (List.mem_cons_self m rest) with h1 | h1 | h1
      · have hn2 : n ≤ st.closedWorkers +
            List.countP (fun x => decide (x.tag = tagEXIT)) rest := by
          have hne : decide (m.tag = tagEXIT) = false := by
            simp [h1, tagREADY, tagEXIT]
          rw [List.countP_cons, hne] at hn
          simpa using hn
        simp only [masterStep_ready_none getTaskEmpty st m h1 rfl]
        exact ih ⟨st.closedWorkers, st.gtIdx + 1, st.started, st.saved⟩ htags2 hn2
      · have hn2 : n ≤ st.closedWorkers +
            List.countP (fun x => decide (x.tag = tagEXIT)) rest := by
          have hne : decide (m.tag = tagEXIT) = false := by
            simp [h1, tagDONE, tagEXIT]
          rw [List.countP_cons, hne] at hn
          simpa using hn
        simp only [masterStep_done getTaskEmpty st m h1]
        exact ih ⟨st.closedWorkers, st.gtIdx, st.started, st.saved ++ [m.data]⟩ htags2 hn2
      · have hn2 : n ≤ (st.closedWorkers + 1) +
            List.countP (fun x => decide (x.tag = tagEXIT)) rest := by
          have hne : decide (m.tag = tagEXIT) = true := by simp [h1]
          rw [List.countP_cons, hne] at hn
          simp at hn
          omega
        simp only [masterStep_exitTag getTaskEmpty st m h1]
        exact ih ⟨st.closedWorkers + 1, st.gtIdx, st.started, st.saved⟩ htags2 hn2
    next => rfl

/-- A successful master step on a non-`EXIT` message leaves the
closed-worker count unchanged. -/
theorem masterStep_not_exit_closed {get_task : Nat → Option Dict}
    {st st2 : MState} {m : MMsgIn} {out : List MMsgOut}
    (h3 : ¬ m.tag = tagEXIT)
    (h : masterStep get_task st m = .ok (st2, out)) :
    st2.closedWorkers = st.closedWorkers := by
  by_cases h1 : m.tag = tagREADY
  · cases hgt : get_task st.gtIdx with
    | none =>
      rw [masterStep_ready_none get_task st m h1 hgt] at h
      rw [← (Prod.mk.inj (Except.ok.inj h)).1]
    | some d =>
      by_cases hde : d.isEmpty
      · simp only [masterStep, h1, if_pos rfl, hgt, hde, if_true] at h
        rw [← (Prod.mk.inj (Except.ok.inj h)).1]
      · cases hf : Dict.find d "priority" with
        | none => simp [masterStep, h1, hgt, hde, hf] at h
        | some p =>
          rw [masterStep_ready_some get_task st m d p h1 hgt hf] at h
          rw [← (Prod.mk.inj (Except.ok.inj h)).1]
  · by_cases h2 : m.tag = tagDONE
    · rw [masterStep_done get_task st m h2] at h
      rw [← (Prod.mk.inj (Except.ok.inj h)).1]
    · rw [masterStep_unknown get_task st m h1 h2 h3] at h
      exact absurd h (by simp)

/-! ## The claims -/

/-- Claim C1 (evidence of the code bug): at the failing input — a task
whose execution function raises — the worker does not catch the failure
into a `FATAL` result, does not send any `DONE` message, and does not
continue its loop.  The result construction raises `NameError` (`pho`
is unbound), the outer handler catches and logs it, and the worker
terminates after its single final `EXIT`, never touching the second
queued `START`. -/
theorem claim_C1_worker_dies_instead_of_fatal_result :
    workerRun execAlwaysRaises timerZero
      [⟨tagSTART, Option.some taskP1⟩, ⟨tagSTART, Option.some taskP1⟩] =
      ([readyMsg, exitAckMsg],
       .failed "NameError: name 'pho' is not defined") := by
  rfl

/-- Claim C2: whenever the execution function raises, the name `pho` is
unbound at the point of result construction — it is never bound on a
failed call and every continuing iteration leaves it deleted — so the
result construction itself raises `NameError`, no `DONE` message is
sent for that task, the failure reaches the outer handler, and the
worker terminates after sending its final `EXIT`. -/
theorem claim_C2_pho_unbound_on_failure :
    (∀ (exec_fn : Dict → ExecResult) (timer : Nat → Int) (st : WState)
       (task : Dict) (p : Value) (e : String),
       st.phoEnv = Option.none →
       Dict.find task "priority" = Option.some p →
       exec_fn (Dict.del task "priority") = .raised e →
       workerHandle exec_fn timer st ⟨tagSTART, Option.some task⟩ =
         .exn "NameError: name 'pho' is not defined") ∧
    (∀ (exec_fn : Dict → ExecResult) (timer : Nat → Int) (st : WState)
       (m : WMsgIn) (st2 : WState) (out : List WMsgOut),
       workerHandle exec_fn timer st m = .cont st2 out →
       st2.phoEnv = Option.none) ∧
    (∀ (exec_fn : Dict → ExecResult) (timer : Nat → Int) (task : Dict)
       (p : Value) (e : String) (rest : List WMsgIn),
       Dict.find task "priority" = Option.some p →
       exec_fn (Dict.del task "priority") = .raised e →
       workerRun exec_fn timer (⟨tagSTART, Option.some task⟩ :: rest) =
         ([readyMsg, exitAckMsg],
          .failed "NameError: name 'pho' is not defined")) := by
  refine ⟨?_, ?_, ?_⟩
  · intro exec_fn timer st task p e hpho hfind hraise
    exact workerHandle_raised_nameError exec_fn timer st task p e hpho hfind hraise
  · intro exec_fn timer st m st2 out h
    exact (workerHandle_cont_shape h).1
  · intro exec_fn timer task p e rest hfind hraise
    have h1 := workerHandle_raised_nameError exec_fn timer initWState task p e
      rfl hfind hraise
    simp [workerRun, workerLoopAux, h1]

theorem claim_C2_witness :
    workerRun execAlwaysRaises timerZero [⟨tagSTART, Option.some taskP1⟩] =
      ([readyMsg, exitAckMsg],
       .failed "NameError: name 'pho' is not defined") :=
  claim_C2_pho_unbound_on_failure.2.2 execAlwaysRaises timerZero taskP1
    (Value.int 1) "boom" [] rfl rfl

/-- Claim C3 (counterexample): the `DONE` payload does contain the
`priority` field of the originating task — `result = task.copy()` runs
before `del task['priority']`, so only the job parameters passed to the
execution function lose `priority`, not the result content. -/
theorem claim_C3_counterexample :
    workerHandle execReturnsOK timerZero initWState
      ⟨tagSTART, Option.some taskP1⟩ =
      .cont ⟨Option.none, 1, 2⟩ [⟨tagDONE, Option.some doneResultP1⟩] ∧
    Dict.find doneResultP1 "priority" = Option.some (Value.int 1) :=
  ⟨rfl, rfl⟩

/-- Claim C3 (amended): the `DONE` payload is the full copy of the
originating task — `priority` included — updated with the status, the
measured elapsed time and the details payload; `priority` is stripped
only from the job parameters handed to the execution function. -/
theorem claim_C3_amended_result_content (exec_fn : Dict → ExecResult)
    (timer : Nat → Int) (st : WState) (task : Dict) (p : Value) (pho : Pho)
    (hfind : Dict.find task "priority" = Option.some p)
    (hok : exec_fn (Dict.del task "priority") = .ok pho) :
    workerHandle exec_fn timer st ⟨tagSTART, Option.some task⟩ =
      .cont ⟨Option.none, st.k + 1, st.nTimer + 2⟩
        [⟨tagDONE, Option.some (Dict.update task
            [("status", Value.status pho.status),
             ("time", Value.int (timer (st.nTimer + 1) - timer st.nTimer)),
             ("details", pho.details)])⟩] ∧
    Dict.find (Dict.update task
      [("status", Value.status pho.status),
       ("time", Value.int (timer (st.nTimer + 1) - timer st.nTimer)),
       ("details", pho.details)]) "priority" = Option.some p := by
  constructor
  · simp [workerHandle, hfind, hok]
  · rw [Dict.find_update_of_not_mem]
    · exact hfind
    · intro kv hkv
      simp only [List.mem_cons, List.not_mem_nil, or_false] at hkv
      rcases hkv with h | h | h <;> subst h <;> simp

theorem claim_C3_amended_witness :
    Dict.find (Dict.update taskP1
      [("status", Value.status STATUS.OK), ("time", Value.int 0),
       ("details", Value.int 0)]) "priority" = Option.some (Value.int 1) :=
  (claim_C3_amended_result_content execReturnsOK timerZero initWState taskP1
    (Value.int 1) ⟨STATUS.OK, Value.int 0⟩ rfl rfl).2

/-- Claim C4: on `READY`, the master asks `get_task`; a returned task
(which by the task data model carries a `priority`) is started via
`start_task` with that priority and sent back with `START`; `None`
yields `EXIT`; and no message other than the `READY` branch ever sends
anything, so `START` is only sent in response to a `READY`. -/
theorem claim_C4_ready_dispatch :
    (∀ (get_task : Nat → Option Dict) (st : MState) (m : MMsgIn)
       (d : Dict) (p : Value),
       m.tag = tagREADY →
       get_task st.gtIdx = Option.some d →
       Dict.find d "priority" = Option.some p →
       masterStep get_task st m =
         .ok (⟨st.closedWorkers, st.gtIdx + 1, st.started ++ [p], st.saved⟩,
              [⟨m.source, tagSTART, Option.some d⟩])) ∧
    (∀ (get_task : Nat → Option Dict) (st : MState) (m : MMsgIn),
       m.tag = tagREADY →
       get_task st.gtIdx = Option.none →
       masterStep get_task st m =
         .ok (⟨st.closedWorkers, st.gtIdx + 1, st.started, st.saved⟩,
              [⟨m.source, tagEXIT, Option.none⟩])) ∧
    (∀ (get_task : Nat → Option Dict) (st : MState) (m : MMsgIn)
       (st2 : MState) (out : List MMsgOut),
       ¬ m.tag = tagREADY →
       masterStep get_task st m = .ok (st2, out) → out = []) := by
  refine ⟨fun gt st m d p ht hgt hf => masterStep_ready_some gt st m d p ht hgt hf,
          fun gt st m ht hgt => masterStep_ready_none gt st m ht hgt, ?_⟩
  intro gt st m st2 out h1 h
  by_cases h2 : m.tag = tagDONE
  · rw [masterStep_done gt st m h2] at h
    exact ((Prod.mk.inj (Except.ok.inj h)).2).symm
  · by_cases h3 : m.tag = tagEXIT
    · rw [masterStep_exitTag gt st m h3] at h
      exact ((Prod.mk.inj (Except.ok.inj h)).2).symm
    · rw [masterStep_unknown gt st m h1 h2 h3] at h
      exact absurd h (by simp)

theorem claim_C4_witness :
    masterStep (fun _ => Option.some taskP1) initMState
      ⟨5, tagREADY, Option.none⟩ =
      .ok (⟨0, 1, [Value.int 1], []⟩, [⟨5, tagSTART, Option.some taskP1⟩]) :=
  claim_C4_ready_dispatch.1 (fun _ => Option.some taskP1) initMState
    ⟨5, tagREADY, Option.none⟩ taskP1 (Value.int 1) rfl rfl rfl

/-- Claim C5: whenever the worker run ends — normal `EXIT` or a failure
anywhere in the loop body — its sent messages contain exactly one
`EXIT`-tagged message, and it is the final message. -/
theorem claim_C5_final_exit (exec_fn : Dict → ExecResult)
    (timer : Nat → Int) (msgs : List WMsgIn) (out : List WMsgOut)
    (e : WorkerEnd)
    (h : workerRun exec_fn timer msgs = (out, e))
    (hne : ¬ e = WorkerEnd.blocked) :
    List.countP (fun o => decide (o.tag = tagEXIT)) out = 1 ∧
    out.getLast? = Option.some exitAckMsg := by
  have hz : ∀ l : List WMsgOut,
      (∀ o ∈ l, ¬ o.tag = tagEXIT) →
      List.countP (fun o => decide (o.tag = tagEXIT)) l = 0 := by
    intro l hl
    rw [List.countP_eq_zero]
    intro a ha
    simpa using hl a ha
  unfold workerRun at h
  cases hx : workerLoopAux exec_fn timer initWState msgs with
  | mk out1 le =>
    rw [hx] at h
    cases le with
    | broke =>
      obtain ⟨h1, h2⟩ := Prod.mk.inj h
      subst h1
      refine ⟨?_, List.getLast?_concat out1⟩
      rw [List.countP_append, hz out1 (fun o ho =>
        workerLoopAux_no_exit exec_fn timer msgs initWState o
          (by rw [hx]; exact ho))]
      rfl
    | failed msg =>
      obtain ⟨h1, h2⟩ := Prod.mk.inj h
      subst h1
      refine ⟨?_, List.getLast?_concat out1⟩
      rw [List.countP_append, hz out1 (fun o ho =>
        workerLoopAux_no_exit exec_fn timer msgs initWState o
          (by rw [hx]; exact ho))]
      rfl
    | blocked =>
      obtain ⟨h1, h2⟩ := Prod.mk.inj h
      exact absurd h2.symm hne

theorem claim_C5_witness :
    List.countP (fun o => decide (o.tag = tagEXIT))
      [readyMsg, exitAckMsg] = 1 ∧
    List.getLast? [readyMsg, exitAckMsg] = Option.some exitAckMsg :=
  claim_C5_final_exit execReturnsOK timerZero [⟨tagEXIT, Option.none⟩]
    [readyMsg, exitAckMsg] WorkerEnd.normal rfl (by decide)

/-- Claim C6: each `EXIT` increments the closed-worker count by exactly
one, `READY` and `DONE` leave it unchanged, the loop stops at once when
the count is not below `num_workers = size - 1`, keeps waiting to
receive while it is, and a drained run ends with the count equal to
`size - 1`. -/
theorem claim_C6_exit_counting :
    (∀ (get_task : Nat → Option Dict) (st : MState) (m : MMsgIn),
       m.tag = tagEXIT →
       masterStep get_task st m =
         .ok (⟨st.closedWorkers + 1, st.gtIdx, st.started, st.saved⟩, [])) ∧
    (∀ (get_task : Nat → Option Dict) (st st2 : MState) (m : MMsgIn)
       (out : List MMsgOut),
       (m.tag = tagREADY ∨ m.tag = tagDONE) →
       masterStep get_task st m = .ok (st2, out) →
       st2.closedWorkers = st.closedWorkers) ∧
    (∀ (get_task : Nat → Option Dict) (n : Nat) (st : MState)
       (msgs : List MMsgIn),
       ¬ st.closedWorkers < n →
       masterLoop get_task n st msgs = ([], st, .drained)) ∧
    (∀ (get_task : Nat → Option Dict) (n : Nat) (st : MState),
       st.closedWorkers < n →
       masterLoop get_task n st [] = ([], st, .blocked)) ∧
    (∀ (get_task : Nat → Option Dict) (size : Nat) (msgs : List MMsgIn)
       (outs : List MMsgOut) (stf : MState),
       masterRun get_task size msgs = (outs, stf, .drained) →
       stf.closedWorkers = size - 1) := by
  refine ⟨fun gt st m ht => masterStep_exitTag gt st m ht, ?_, ?_, ?_, ?_⟩
  · intro gt st st2 m out hor h
    have h3 : ¬ m.tag = tagEXIT := by
      rcases hor with h1 | h1 <;> rw [h1] <;> decide
    exact masterStep_not_exit_closed h3 h
  · intro gt n st msgs hge
    exact masterLoop_drained_of_guard gt n st msgs hge
  · intro gt n st hlt
    simp [masterLoop, hlt]
  · intro gt size msgs outs stf h
    exact masterLoop_drained_closed gt (size - 1) msgs initMState outs stf
      (Nat.zero_le _) h

theorem claim_C6_witness :
    masterStep getTaskEmpty initMState ⟨1, tagEXIT, Option.none⟩ =
      .ok (⟨1, 0, [], []⟩, []) :=
  claim_C6_exit_counting.1 getTaskEmpty initMState ⟨1, tagEXIT, Option.none⟩ rfl

/-- Claim C7: a message whose tag is outside the four protocol tags is
fatal to the receiving loop: the master raises an exception whose text
names the tag and its loop ends crashed without processing further
messages; the worker loop body raises an exception naming the tag,
which ends the loop (the run terminates after the final `EXIT` rather
than continuing). -/
theorem claim_C7_unknown_tag_fatal :
    (∀ (get_task : Nat → Option Dict) (st : MState) (m : MMsgIn),
       ¬ m.tag ∈ [tagREADY, tagDONE, tagEXIT, tagSTART] →
       masterStep get_task st m =
         .error ("Master recieved an unknown tag: '" ++ toString m.tag ++ "'")) ∧
    (∀ (exec_fn : Dict → ExecResult) (timer : Nat → Int) (st : WState)
       (m : WMsgIn),
       ¬ m.tag ∈ [tagREADY, tagDONE, tagEXIT, tagSTART] →
       workerHandle exec_fn timer st m =
         .exn ("Worker recieved an unknown tag: '" ++ toString m.tag ++ "'")) ∧
    (∀ (get_task : Nat → Option Dict) (n : Nat) (st : MState) (m : MMsgIn)
       (rest : List MMsgIn),
       st.closedWorkers < n →
       ¬ m.tag ∈ [tagREADY, tagDONE, tagEXIT, tagSTART] →
       masterLoop get_task n st (m :: rest) =
         ([], st,
          .crashed ("Master recieved an unknown tag: '" ++ toString m.tag ++ "'"))) ∧
    (∀ (exec_fn : Dict → ExecResult) (timer : Nat → Int) (m : WMsgIn)
       (rest : List WMsgIn),
       ¬ m.tag ∈ [tagREADY, tagDONE, tagEXIT, tagSTART] →
       workerRun exec_fn timer (m :: rest) =
         ([readyMsg, exitAckMsg],
          .failed ("Worker recieved an unknown tag: '" ++ toString m.tag ++ "'"))) := by
  refine ⟨?_, ?_, ?_, ?_⟩
  · intro gt st m hmem
    simp only [List.mem_cons, List.not_mem_nil, or_false, not_or] at hmem
    exact masterStep_unknown gt st m hmem.1 hmem.2.1 hmem.2.2.1
  · intro exec_fn timer st m hmem
    simp only [List.mem_cons, List.not_mem_nil, or_false, not_or] at hmem
    simp [workerHandle, hmem.2.2.2, hmem.2.2.1]
  · intro gt n st m rest hlt hmem
    simp only [List.mem_cons, List.not_mem_nil, or_false, not_or] at hmem
    simp [masterLoop, hlt,
      masterStep_unknown gt st m hmem.1 hmem.2.1 hmem.2.2.1]
  · intro exec_fn timer m rest hmem
    simp only [List.mem_cons, List.not_mem_nil, or_false, not_or] at hmem
    have h1 : workerHandle exec_fn timer initWState m =
        .exn ("Worker recieved an unknown tag: '" ++ toString m.tag ++ "'") := by
      simp [workerHandle, hmem.2.2.2, hmem.2.2.1]
    simp [workerRun, workerLoopAux, h1]

theorem claim_C7_witness :
    masterStep getTaskEmpty initMState ⟨2, 7, Option.none⟩ =
      .error "Master recieved an unknown tag: '7'" ∧
    workerRun execReturnsOK timerZero [⟨7, Option.none⟩] =
      ([readyMsg, exitAckMsg],
       .failed "Worker recieved an unknown tag: '7'") :=
  ⟨claim_C7_unknown_tag_fatal.1 getTaskEmpty initMState
     ⟨2, 7, Option.none⟩ (by decide),
   claim_C7_unknown_tag_fatal.2.2.2 execReturnsOK timerZero
     ⟨7, Option.none⟩ [] (by decide)⟩

/-- Claim C9: with a store holding zero pending tasks, the master never
sends `START`, answers every `READY` with `EXIT` to its source, and a
trace of known-tag messages in which all `size - 1` workers acknowledge
with `EXIT` drains the loop. -/
theorem claim_C9_empty_store_drains :
    (∀ (n : Nat) (msgs : List MMsgIn) (st : MState),
       ∀ o ∈ (masterLoop getTaskEmpty n st msgs).1, ¬ o.tag = tagSTART) ∧
    (∀ (st : MState) (m : MMsgIn),
       m.tag = tagREADY →
       masterStep getTaskEmpty st m =
         .ok (⟨st.closedWorkers, st.gtIdx + 1, st.started, st.saved⟩,
              [⟨m.source, tagEXIT, Option.none⟩])) ∧
    (∀ (size : Nat) (msgs : List MMsgIn),
       (∀ m ∈ msgs, m.tag = tagREADY ∨ m.tag = tagDONE ∨ m.tag = tagEXIT) →
       size - 1 ≤ List.countP (fun m => decide (m.tag = tagEXIT)) msgs →
       (masterRun getTaskEmpty size msgs).2.2 = .drained) := by
  refine ⟨fun n msgs st => masterLoop_no_start_empty n msgs st,
          fun st m ht => masterStep_ready_none getTaskEmpty st m ht rfl, ?_⟩
  intro size msgs htags hcnt
  exact masterLoop_drains_empty (size - 1) msgs initMState htags
    (by simp only [initMState]; omega)

theorem claim_C9_witness :
    (masterRun getTaskEmpty 3
      [⟨1, tagREADY, Option.none⟩, ⟨1, tagEXIT, Option.none⟩,
       ⟨2, tagREADY, Option.none⟩, ⟨2, tagEXIT, Option.none⟩]).2.2 =
      MasterEnd.drained :=
  claim_C9_empty_store_drains.2.2 3
    [⟨1, tagREADY, Option.none⟩, ⟨1, tagEXIT, Option.none⟩,
     ⟨2, tagREADY, Option.none⟩, ⟨2, tagEXIT, Option.none⟩]
    (by decide) (by decide)

/-- Claim C10: queue exhaustion is decided by Python truthiness, not by
comparison with `None`: both `None` and an empty task dictionary make
the master send `EXIT` to the requesting worker, and a `START` is only
ever sent when `get_task` returned a truthy (non-empty) dictionary. -/
theorem claim_C10_truthiness_dispatch :
    (∀ (get_task : Nat → Option Dict) (st : MState) (m : MMsgIn),
       m.tag = tagREADY →
       get_task st.gtIdx = Option.none →
       masterStep get_task st m =
         .ok (⟨st.closedWorkers, st.gtIdx + 1, st.started, st.saved⟩,
              [⟨m.source, tagEXIT, Option.none⟩])) ∧
    (∀ (get_task : Nat → Option Dict) (st : MState) (m : MMsgIn),
       m.tag = tagREADY →
       get_task st.gtIdx = Option.some [] →
       masterStep get_task st m =
         .ok (⟨st.closedWorkers, st.gtIdx + 1, st.started, st.saved⟩,
              [⟨m.source, tagEXIT, Option.none⟩])) ∧
    (∀ (get_task : Nat → Option Dict) (st : MState) (m : MMsgIn)
       (st2 : MState) (out : List MMsgOut) (o : MMsgOut),
       masterStep get_task st m = .ok (st2, out) →
       o ∈ out →
       o.tag = tagSTART →
       pyTruthy (get_task st.gtIdx) = true) := by
  refine ⟨fun gt st m ht hgt => masterStep_ready_none gt st m ht hgt,
          fun gt st m ht hgt => masterStep_ready_emptyDict gt st m ht hgt, ?_⟩
  intro gt st m st2 out o h ho hstart
  by_cases h1 : m.tag = tagREADY
  · cases hgt : gt st.gtIdx with
    | none =>
      rw [masterStep_ready_none gt st m h1 hgt] at h
      rw [← (Prod.mk.inj (Except.ok.inj h)).2] at ho
      simp only [List.mem_singleton] at ho
      subst ho
      exact absurd hstart (by simp [tagEXIT, tagSTART])
    | some d =>
      by_cases hde : d.isEmpty
      · simp only [masterStep, h1, if_pos rfl, hgt, hde, if_true] at h
        rw [← (Prod.mk.inj (Except.ok.inj h)).2] at ho
        simp only [List.mem_singleton] at ho
        subst ho
        exact absurd hstart (by simp [tagEXIT, tagSTART])
      · simp [pyTruthy, hde]
  · by_cases h2 : m.tag = tagDONE
    · rw [masterStep_done gt st m h2] at h
      rw [← (Prod.mk.inj (Except.ok.inj h)).2] at ho
      exact absurd ho (List.not_mem_nil o)
    · by_cases h3 : m.tag = tagEXIT
      · rw [masterStep_exitTag gt st m h3] at h
        rw [← (Prod.mk.inj (Except.ok.inj h)).2] at ho
        exact absurd ho (List.not_mem_nil o)
      · rw [masterStep_unknown gt st m h1 h2 h3] at h
        exact absurd h (by simp)

theorem claim_C10_witness :
    masterStep (fun _ => Option.some ([] : Dict)) initMState
      ⟨4, tagREADY, Option.none⟩ =
      .ok (⟨0, 1, [], []⟩, [⟨4, tagEXIT, Option.none⟩]) :=
  claim_C10_truthiness_dispatch.2.1 (fun _ => Option.some ([] : Dict))
    initMState ⟨4, tagREADY, Option.none⟩ rfl rfl

end TessScheduler

namespace TodoList

/-- Claim C8: `make_todo` gives every task a unique, dense integer
priority: the priorities of the written `todolist` rows are exactly the
consecutive integers `1..N` in the tmag-sorted order (the rows carry the
tmag-sorted catalog), they are pairwise distinct, and the stored table
carries a unique index on the `priority` column. -/
theorem claim_C8_dense_unique_priorities
    (methods : Int → Int → String → Option String) (cat : List CatRow) :
    List.map TodoRow.priority (makeTodoRows methods cat) =
      List.map (fun i => i + 1) (List.range cat.length) ∧
    (List.map TodoRow.priority (makeTodoRows methods cat)).Nodup ∧
    List.map TodoRow.tmag (makeTodoRows methods cat) =
      List.map CatRow.tmag (sortByTmag cat) ∧
    IndexDef.mk "priority_idx" true ["priority"] ∈ todolistIndexes := by
  have hlen : (sortByTmag cat).length = cat.length :=
    List.length_mergeSort cat
  have h1 : List.map TodoRow.priority (makeTodoRows methods cat) =
      List.map (fun i => i + 1) (List.range cat.length) := by
    unfold makeTodoRows
    rw [List.map_map]
    have h2 : List.map (fun i => i + 1)
        (List.map Prod.fst (List.enum (sortByTmag cat))) =
        List.map (fun i => i + 1) (List.range cat.length) := by
      rw [List.enum_map_fst, hlen]
    rw [List.map_map] at h2
    exact h2
  refine ⟨h1, ?_, ?_, ?_⟩
  · rw [h1]
    exact (List.nodup_range cat.length).map (fun a b h => by omega)
  · unfold makeTodoRows
    rw [List.map_map]
    have h3 : List.map CatRow.tmag
        (List.map Prod.snd (List.enum (sortByTmag cat))) =
        List.map CatRow.tmag (sortByTmag cat) := by
      rw [List.enum_map_snd]
    rw [List.map_map] at h3
    exact h3
  · exact List.mem_cons_self _ _

end TodoList
